import Mathlib

/-!
Verification development for the Cold Calling Assistant (`src/app.py`).

The program is a Streamlit app holding an in-memory call log (a list of
dicts) and computing summary statistics over a pandas DataFrame built from
that log.  We embed the data model and the statistics/export pipeline
shallowly:

* A wall-clock instant is a `Nat` counting microseconds since an epoch
  (in the app's fixed PST timezone; every record uses the same timezone,
  so the zone itself plays no role in any computation).
* `log_call` stores the timestamp via `strftime "%Y-%m-%d %H:%M:%S"`,
  which renders whole seconds and drops the sub-second part.  We model the
  stored string by the whole-second value `t / 1000000`; the later
  `pd.to_datetime` parse recovers exactly this second-precision instant.
* Python `float` arithmetic on these quantities is modelled exactly by
  `ℚ` (all claims about percentages are stated up to rounding tolerance,
  which exact rational arithmetic witnesses).
* A pandas DataFrame is a `Frame`: the list of call records (its five
  base columns) plus the optional `datetime` column that
  `calculate_statistics` assigns into the frame it receives.
-/

namespace ColdCalling

/-- One entry of `st.session_state.call_log` (`log_call`, app.py:139-145):
a dict with keys, in insertion order, `timestamp`, `business`, `notes`,
`result`, `reason`.  The timestamp is stored at whole-second precision
(seconds since the epoch), modelling the `"%Y-%m-%d %H:%M:%S"` string. -/
structure CallRecord where
  timestamp : Nat
  business : String
  notes : String
  result : String
  reason : String
deriving DecidableEq, Repr

/-- `log_call` (app.py:136-145): appends one record to the log, stamping it
with the current time formatted to whole seconds — `strftime` drops the
microsecond part, modelled by `nowMicros / 1000000`. -/
def log_call (log : List CallRecord) (nowMicros : Nat)
    (business notes result reason : String) : List CallRecord :=
  log ++ [{ timestamp := nowMicros / 1000000, business := business,
            notes := notes, result := result, reason := reason }]

/-- The form submit handler (app.py:322-323):
`if submitted and business_name: log_call(...)`.
Python string truthiness makes the guard succeed exactly when the
business name is non-empty. -/
def submitHandler (log : List CallRecord) (submitted : Bool)
    (business notes result reason : String) (nowMicros : Nat) : List CallRecord :=
  if submitted ∧ business ≠ "" then
    log_call log nowMicros business notes result reason
  else log

/-- A pandas DataFrame as used by the app: `pd.DataFrame(call_log)`
has the five record columns; `calculate_statistics` later assigns a sixth
column `datetime` (the parsed timestamps) into the same frame. -/
structure Frame where
  rows : List CallRecord
  datetimeCol : Option (List Nat)
deriving DecidableEq, Repr

/-- `pd.DataFrame(st.session_state.call_log)` (app.py:329). -/
def Frame.ofLog (log : List CallRecord) : Frame :=
  { rows := log, datetimeCol := none }

/-- `series.max()` over a pandas Series of instants (app.py:157). -/
def seriesMax : List Nat → Nat
  | [] => 0
  | [x] => x
  | x :: y :: xs => max x (seriesMax (y :: xs))

/-- `series.min()` over a pandas Series of instants (app.py:157). -/
def seriesMin : List Nat → Nat
  | [] => 0
  | [x] => x
  | x :: y :: xs => min x (seriesMin (y :: xs))

/-- The distinct values of a list in order of first occurrence (the
grouping order pandas uses before `value_counts` sorts by frequency). -/
def firstOccurrences : List String → List String
  | [] => []
  | x :: xs => x :: (firstOccurrences xs).filter (fun v => v ≠ x)

/-- The comparison `value_counts` sorts by: descending count. -/
def countGE (a b : String × Nat) : Prop := b.2 ≤ a.2

instance : DecidableRel countGE := fun a b => Nat.decLe b.2 a.2

instance : IsTotal (String × Nat) countGE := ⟨fun a b => Nat.le_total b.2 a.2⟩

instance : IsTrans (String × Nat) countGE :=
  ⟨fun _ _ _ h h' => Nat.le_trans h' h⟩

/-- `Series.value_counts()` (app.py:170): each distinct value with its
multiplicity, sorted by count descending.  The order among equal counts is
not specified by pandas; we model it as a stable sort over the
first-occurrence grouping order. -/
def value_counts (xs : List String) : List (String × Nat) :=
  List.insertionSort countGE ((firstOccurrences xs).map (fun v => (v, xs.count v)))

/-- The dict returned by `calculate_statistics` (app.py:176-186).
`start_time`/`end_time` hold the underlying min/max instants; the app
formats them with `strftime` for display, which no claim depends on. -/
structure Stats where
  total_calls : Nat
  interested_pct : ℚ
  rejected_pct : ℚ
  reason_pcts : List (String × ℚ)
  duration_hours : Nat
  duration_minutes : Nat
  calls_per_hour : ℚ
  start_time : Nat
  end_time : Nat
deriving DecidableEq, Repr

/-- The statistics computed from the rows of a non-empty frame
(app.py:153-186), line by line:
`time_diff = max - min`; `total_hours = seconds / 3600`;
`calls_per_hour = total_calls / total_hours if total_hours > 0 else total_calls`;
`hours = int(seconds // 3600)`; `minutes = int(seconds % 3600 // 60)`;
`interested_pct = (result == 'Interested').mean() * 100` (and rejected);
`reason_pcts = {reason: count / total_calls * 100 for ... value_counts()}`. -/
def statsOf (rows : List CallRecord) : Stats :=
  let total_calls := rows.length
  let ts := rows.map CallRecord.timestamp
  let timeDiffSeconds := seriesMax ts - seriesMin ts
  let total_hours : ℚ := (timeDiffSeconds : ℚ) / 3600
  let calls_per_hour : ℚ :=
    if 0 < total_hours then (total_calls : ℚ) / total_hours else (total_calls : ℚ)
  let hours := timeDiffSeconds / 3600
  let minutes := timeDiffSeconds % 3600 / 60
  let interested_pct : ℚ :=
    ((rows.filter (fun r => r.result = "Interested")).length : ℚ) / (total_calls : ℚ) * 100
  let rejected_pct : ℚ :=
    ((rows.filter (fun r => r.result = "Rejected")).length : ℚ) / (total_calls : ℚ) * 100
  let reason_counts := value_counts (rows.map CallRecord.reason)
  let reason_pcts := reason_counts.map (fun p => (p.1, (p.2 : ℚ) / (total_calls : ℚ) * 100))
  { total_calls := total_calls
    interested_pct := interested_pct
    rejected_pct := rejected_pct
    reason_pcts := reason_pcts
    duration_hours := hours
    duration_minutes := minutes
    calls_per_hour := calls_per_hour
    start_time := seriesMin ts
    end_time := seriesMax ts }

/-- `calculate_statistics(df)` (app.py:147-188).  Returns `None` for an
empty frame *before* touching it; otherwise it assigns the parsed
`datetime` column into the frame it was given (`df['datetime'] = ...`,
app.py:154 — an in-place mutation of the caller's DataFrame) and returns
the statistics dict.  The returned pair is (frame after the call, result). -/
def calculate_statistics (df : Frame) : Frame × Option Stats :=
  if df.rows.length = 0 then (df, none)
  else
    ({ df with datetimeCol := some (df.rows.map CallRecord.timestamp) },
     some (statsOf df.rows))

/-- pandas `to_csv` minimal quoting: a cell is quoted iff it contains a
comma, quote, or line break; inner quotes are doubled. -/
def csvCell (s : String) : String :=
  if s.data.contains ',' ∨ s.data.contains '"' ∨ s.data.contains '\n'
      ∨ s.data.contains '\r' then
    "\"" ++ s.replace "\"" "\"\"" ++ "\""
  else s

/-- One CSV line from a list of cells. -/
def csvRow (cells : List String) : String :=
  String.intercalate "," (cells.map csvCell)

/-- The column labels of a frame, in DataFrame order: the five dict keys
of `log_call` in insertion order, then `datetime` when that column has
been assigned. -/
def frameHeader (df : Frame) : List String :=
  ["timestamp", "business", "notes", "result", "reason"] ++
    (if df.datetimeCol.isSome then ["datetime"] else [])

/-- The cells of one data row.  The `timestamp` cell is the stored
second-precision value; a `datetime` cell renders the same instant (the
exact text pandas prints for a tz-aware timestamp is presentational and
no claim depends on it). -/
def rowCells (r : CallRecord) (dt : Option Nat) : List String :=
  [toString r.timestamp, r.business, r.notes, r.result, r.reason] ++
    (match dt with
     | some t => [toString t]
     | none => [])

/-- `df.to_csv(index=False)` (app.py:374), as the list of its lines:
one header line of column labels, then one line per row. -/
def to_csv_lines (df : Frame) : List String :=
  csvRow (frameHeader df) ::
    (match df.datetimeCol with
     | none => df.rows.map (fun r => csvRow (rowCells r none))
     | some dts => (df.rows.zip dts).map (fun p => csvRow (rowCells p.1 (some p.2))))

/-- The CSV-export path of the UI (app.py:327-377): the DataFrame is built
from the call log, `calculate_statistics` is called on it (adding the
`datetime` column in place), and only when statistics were produced is the
download offered, serialising the (by now mutated) DataFrame. -/
def exportCsvLines (log : List CallRecord) : Option (List String) :=
  if log.isEmpty then none
  else
    let df := Frame.ofLog log
    let res := calculate_statistics df
    match res.2 with
    | some _ => some (to_csv_lines res.1)
    | none => none

/-! ### Helper lemmas about the embedded operations -/

theorem seriesMax_mem : ∀ (l : List Nat), l ≠ [] → seriesMax l ∈ l
  | [], h => absurd rfl h
  | [x], _ => by simp [seriesMax]
  | x :: y :: xs, _ => by
    have ih := seriesMax_mem (y :: xs) (by simp)
    simp only [seriesMax]
    rcases Nat.le_total x (seriesMax (y :: xs)) with h | h
    · rw [Nat.max_eq_right h]
      exact List.mem_cons_of_mem _ ih
    · rw [Nat.max_eq_left h]
      exact List.mem_cons_self _ _

theorem le_seriesMax : ∀ (l : List Nat), ∀ x ∈ l, x ≤ seriesMax l
  | [], x, hx => absurd hx (List.not_mem_nil x)
  | [y], x, hx => by
    simp only [List.mem_singleton] at hx
    simp [seriesMax, hx]
  | y :: z :: xs, x, hx => by
    simp only [seriesMax]
    rcases List.mem_cons.mp hx with rfl | hx'
    · exact Nat.le_max_left _ _
    · exact Nat.le_trans (le_seriesMax (z :: xs) x hx') (Nat.le_max_right _ _)

theorem seriesMin_mem : ∀ (l : List Nat), l ≠ [] → seriesMin l ∈ l
  | [], h => absurd rfl h
  | [x], _ => by simp [seriesMin]
  | x :: y :: xs, _ => by
    have ih := seriesMin_mem (y :: xs) (by simp)
    simp only [seriesMin]
    rcases Nat.le_total x (seriesMin (y :: xs)) with h | h
    · rw [Nat.min_eq_left h]
      exact List.mem_cons_self _ _
    · rw [Nat.min_eq_right h]
      exact List.mem_cons_of_mem _ ih

theorem seriesMin_le : ∀ (l : List Nat), ∀ x ∈ l, seriesMin l ≤ x
  | [], x, hx => absurd hx (List.not_mem_nil x)
  | [y], x, hx => by
    simp only [List.mem_singleton] at hx
    simp [seriesMin, hx]
  | y :: z :: xs, x, hx => by
    simp only [seriesMin]
    rcases List.mem_cons.mp hx with rfl | hx'
    · exact Nat.min_le_left _ _
    · exact Nat.le_trans (Nat.min_le_right _ _) (seriesMin_le (z :: xs) x hx')

theorem seriesMax_perm {l l' : List Nat} (h : l.Perm l') (hne : l ≠ []) :
    seriesMax l = seriesMax l' := by
  have hne' : l' ≠ [] := by
    intro h0
    exact hne (List.Perm.eq_nil (h0 ▸ h))
  exact Nat.le_antisymm
    (le_seriesMax l' _ (h.mem_iff.mp (seriesMax_mem l hne)))
    (le_seriesMax l _ (h.mem_iff.mpr (seriesMax_mem l' hne')))

theorem seriesMin_perm {l l' : List Nat} (h : l.Perm l') (hne : l ≠ []) :
    seriesMin l = seriesMin l' := by
  have hne' : l' ≠ [] := by
    intro h0
    exact hne (List.Perm.eq_nil (h0 ▸ h))
  exact Nat.le_antisymm
    (seriesMin_le l _ (h.mem_iff.mpr (seriesMin_mem l' hne')))
    (seriesMin_le l' _ (h.mem_iff.mp (seriesMin_mem l hne)))

theorem seriesMax_of_const {l : List Nat} {c : Nat} (h : ∀ x ∈ l, x = c)
    (hne : l ≠ []) : seriesMax l = c :=
  h _ (seriesMax_mem l hne)

theorem seriesMin_of_const {l : List Nat} {c : Nat} (h : ∀ x ∈ l, x = c)
    (hne : l ≠ []) : seriesMin l = c :=
  h _ (seriesMin_mem l hne)

theorem mem_firstOccurrences {v : String} :
    ∀ (xs : List String), v ∈ firstOccurrences xs ↔ v ∈ xs
  | [] => Iff.rfl
  | x :: t => by
    by_cases hv : v = x
    · subst hv
      simp [firstOccurrences]
    · simp only [firstOccurrences, List.mem_cons, List.mem_filter,
        decide_eq_true_eq, mem_firstOccurrences t]
      tauto

theorem nodup_firstOccurrences : ∀ (xs : List String), (firstOccurrences xs).Nodup
  | [] => List.nodup_nil
  | x :: t => by
    simp only [firstOccurrences, List.nodup_cons]
    constructor
    · intro hmem
      have := (List.mem_filter.mp hmem).2
      simp at this
    · exact (nodup_firstOccurrences t).filter _

theorem sum_map_filter_ne (f : String → Nat) (x : String) :
    ∀ (l : List String), l.Nodup →
      (((l.filter (fun v => v ≠ x)).map f).sum + (if x ∈ l then f x else 0)
        = (l.map f).sum)
  | [], _ => by simp
  | y :: ys, hnd => by
    obtain ⟨hy, hys⟩ := List.nodup_cons.mp hnd
    by_cases hyx : y = x
    · subst hyx
      rw [if_pos (List.mem_cons_self y ys)]
      have h1 : (y :: ys).filter (fun v => v ≠ y) = ys.filter (fun v => v ≠ y) :=
        List.filter_cons_of_neg (by simp)
      have h2 : ys.filter (fun v => v ≠ y) = ys :=
        List.filter_eq_self.mpr (fun a ha => by
          simp only [decide_eq_true_eq]
          intro hay
          exact hy (hay ▸ ha))
      rw [h1, h2, List.map_cons, List.sum_cons]
      exact Nat.add_comm _ _
    · have hxmem : (x ∈ y :: ys) ↔ (x ∈ ys) := by
        constructor
        · intro hmem
          rcases List.mem_cons.mp hmem with h | h
          · exact absurd h.symm hyx
          · exact h
        · exact List.mem_cons_of_mem y
      have ih := sum_map_filter_ne f x ys hys
      have hkeep : (y :: ys).filter (fun v => v ≠ x)
          = y :: ys.filter (fun v => v ≠ x) := by
        simp [List.filter_cons, hyx]
      rw [hkeep]
      simp only [List.map_cons, List.sum_cons]
      rw [if_congr hxmem rfl rfl]
      omega

theorem sum_counts_firstOccurrences :
    ∀ (xs : List String), ((firstOccurrences xs).map (fun v => xs.count v)).sum = xs.length
  | [] => rfl
  | x :: t => by
    have ih := sum_counts_firstOccurrences t
    simp only [firstOccurrences, List.map_cons, List.sum_cons]
    have hcongr : ((firstOccurrences t).filter (fun v => v ≠ x)).map
        (fun v => (x :: t).count v)
        = ((firstOccurrences t).filter (fun v => v ≠ x)).map (fun v => t.count v) := by
      apply List.map_congr_left
      intro a ha
      have hax : a ≠ x := by
        have := (List.mem_filter.mp ha).2
        simpa using this
      exact List.count_cons_of_ne hax t
    rw [hcongr]
    have hsplit := sum_map_filter_ne (fun v => t.count v) x
      (firstOccurrences t) (nodup_firstOccurrences t)
    by_cases hxt : x ∈ t
    · rw [if_pos ((mem_firstOccurrences t).mpr hxt)] at hsplit
      have hsplit' : (((firstOccurrences t).filter (fun v => v ≠ x)).map
            (fun v => t.count v)).sum + t.count x
          = ((firstOccurrences t).map (fun v => t.count v)).sum := hsplit
      have hcount : (x :: t).count x = t.count x + 1 := List.count_cons_self x t
      rw [hcount, List.length_cons]
      omega
    · have hc0 : t.count x = 0 := List.count_eq_zero_of_not_mem hxt
      rw [if_neg (fun hmem => hxt ((mem_firstOccurrences t).mp hmem))] at hsplit
      have hcount : (x :: t).count x = t.count x + 1 := List.count_cons_self x t
      rw [hcount, List.length_cons]
      omega

theorem value_counts_perm (xs : List String) :
    (value_counts xs).Perm ((firstOccurrences xs).map (fun v => (v, xs.count v))) :=
  List.perm_insertionSort countGE _

theorem value_counts_sorted (xs : List String) :
    (value_counts xs).Pairwise countGE :=
  List.sorted_insertionSort countGE _

theorem value_counts_keys_perm (xs : List String) :
    ((value_counts xs).map Prod.fst).Perm (firstOccurrences xs) := by
  have h := (value_counts_perm xs).map Prod.fst
  rwa [List.map_map, show (Prod.fst ∘ fun v => (v, xs.count v)) = id from rfl,
    List.map_id] at h

theorem value_counts_sum_counts (xs : List String) :
    ((value_counts xs).map Prod.snd).sum = xs.length := by
  have h := ((value_counts_perm xs).map Prod.snd).sum_eq
  rw [List.map_map] at h
  rw [h]
  exact sum_counts_firstOccurrences xs

theorem statsOf_total_calls (rows : List CallRecord) :
    (statsOf rows).total_calls = rows.length := rfl

theorem statsOf_reason_pcts (rows : List CallRecord) :
    (statsOf rows).reason_pcts
      = (value_counts (rows.map CallRecord.reason)).map
          (fun p => (p.1, (p.2 : ℚ) / (rows.length : ℚ) * 100)) := rfl

theorem statsOf_duration_hours (rows : List CallRecord) :
    (statsOf rows).duration_hours
      = (seriesMax (rows.map CallRecord.timestamp)
          - seriesMin (rows.map CallRecord.timestamp)) / 3600 := rfl

theorem statsOf_duration_minutes (rows : List CallRecord) :
    (statsOf rows).duration_minutes
      = (seriesMax (rows.map CallRecord.timestamp)
          - seriesMin (rows.map CallRecord.timestamp)) % 3600 / 60 := rfl

theorem statsOf_start_time (rows : List CallRecord) :
    (statsOf rows).start_time = seriesMin (rows.map CallRecord.timestamp) := rfl

theorem statsOf_end_time (rows : List CallRecord) :
    (statsOf rows).end_time = seriesMax (rows.map CallRecord.timestamp) := rfl

theorem statsOf_calls_per_hour (rows : List CallRecord) :
    (statsOf rows).calls_per_hour
      = (if 0 < (((seriesMax (rows.map CallRecord.timestamp)
              - seriesMin (rows.map CallRecord.timestamp) : Nat) : ℚ) / 3600) then
          (rows.length : ℚ) / (((seriesMax (rows.map CallRecord.timestamp)
              - seriesMin (rows.map CallRecord.timestamp) : Nat) : ℚ) / 3600)
        else (rows.length : ℚ)) := rfl

theorem calculate_statistics_of_ne_nil {df : Frame} (h : df.rows ≠ []) :
    calculate_statistics df
      = ({ df with datetimeCol := some (df.rows.map CallRecord.timestamp) },
         some (statsOf df.rows)) := by
  unfold calculate_statistics
  rw [if_neg (fun h0 => h (List.length_eq_zero.mp h0))]

theorem calculate_statistics_of_nil {df : Frame} (h : df.rows = []) :
    calculate_statistics df = (df, none) := by
  unfold calculate_statistics
  rw [if_pos (by rw [h]; rfl)]

theorem sum_map_pct (l : List Nat) (T : ℚ) :
    (l.map (fun c : Nat => (c : ℚ) / T * 100)).sum = ((l.sum : ℚ) / T) * 100 := by
  induction l with
  | nil => simp
  | cons c cs ih =>
    simp only [List.map_cons, List.sum_cons, ih, List.sum_cons]
    push_cast
    ring

/-! ### Concrete sample data used by witnesses and counterexamples -/

def sampleRecord : CallRecord :=
  { timestamp := 7, business := "Acme", notes := "",
    result := "Interested", reason := "N/A" }

def sampleFrame : Frame := Frame.ofLog [sampleRecord]

/-! ### The claims -/

/-- C1: for an empty call-log snapshot, `calculate_statistics` returns the
explicit absent result `None` (and, in particular, raises nothing and
produces no statistics fields); the frame is returned untouched. -/
theorem c1_empty_snapshot_none (df : Frame) (h : df.rows = []) :
    calculate_statistics df = (df, none) :=
  calculate_statistics_of_nil h

theorem c1_empty_snapshot_none_witness :
    calculate_statistics (Frame.ofLog []) = (Frame.ofLog [], none) :=
  c1_empty_snapshot_none (Frame.ofLog []) rfl

/-- C2: for every non-empty snapshot, `calls_per_hour` equals
`total_calls` divided by the elapsed duration in hours when that duration
is strictly positive, and equals `total_calls` itself when the duration is
zero; in particular, when all timestamps in the snapshot are identical
(including a single-record snapshot), `calls_per_hour = total_calls`. -/
theorem c2_calls_per_hour_spec (df : Frame) (h : df.rows ≠ []) :
    ∃ s, (calculate_statistics df).2 = some s ∧
      (∀ d : Nat,
        d = seriesMax (df.rows.map CallRecord.timestamp)
              - seriesMin (df.rows.map CallRecord.timestamp) →
        (0 < d → s.calls_per_hour = (s.total_calls : ℚ) / ((d : ℚ) / 3600)) ∧
        (d = 0 → s.calls_per_hour = (s.total_calls : ℚ))) ∧
      ((∀ r ∈ df.rows, ∀ r' ∈ df.rows, r.timestamp = r'.timestamp) →
        s.calls_per_hour = (s.total_calls : ℚ)) := by
  rw [calculate_statistics_of_ne_nil h]
  refine ⟨statsOf df.rows, rfl, ?_, ?_⟩
  · intro d hd
    subst hd
    constructor
    · intro hpos
      rw [statsOf_calls_per_hour, statsOf_total_calls,
        if_pos (div_pos (by exact_mod_cast hpos) (by norm_num))]
    · intro hzero
      rw [statsOf_calls_per_hour, statsOf_total_calls, hzero]
      norm_num
  · intro hall
    obtain ⟨r₀, hr₀⟩ := List.exists_mem_of_ne_nil df.rows h
    have hconst : ∀ x ∈ df.rows.map CallRecord.timestamp, x = r₀.timestamp := by
      intro x hx
      obtain ⟨r, hr, rfl⟩ := List.mem_map.mp hx
      exact hall r hr r₀ hr₀
    have hne : df.rows.map CallRecord.timestamp ≠ [] := by
      intro h0
      exact h (List.map_eq_nil_iff.mp h0)
    have hzero : seriesMax (df.rows.map CallRecord.timestamp)
        - seriesMin (df.rows.map CallRecord.timestamp) = 0 := by
      rw [seriesMax_of_const hconst hne, seriesMin_of_const hconst hne]
      exact Nat.sub_self _
    rw [statsOf_calls_per_hour, statsOf_total_calls, hzero]
    norm_num

theorem c2_calls_per_hour_spec_witness :
    sampleFrame.rows ≠ [] ∧
    (∃ s, (calculate_statistics sampleFrame).2 = some s ∧
      (∀ d : Nat,
        d = seriesMax (sampleFrame.rows.map CallRecord.timestamp)
              - seriesMin (sampleFrame.rows.map CallRecord.timestamp) →
        (0 < d → s.calls_per_hour = (s.total_calls : ℚ) / ((d : ℚ) / 3600)) ∧
        (d = 0 → s.calls_per_hour = (s.total_calls : ℚ))) ∧
      ((∀ r ∈ sampleFrame.rows, ∀ r' ∈ sampleFrame.rows,
          r.timestamp = r'.timestamp) →
        s.calls_per_hour = (s.total_calls : ℚ))) :=
  ⟨by decide, c2_calls_per_hour_spec sampleFrame (by decide)⟩

/-- C3: for every non-empty snapshot, the values of `reason_pcts` sum to
exactly 100 (in the exact rational model of the float arithmetic). -/
theorem c3_reason_pcts_sum_100 (df : Frame) (h : df.rows ≠ []) :
    ∃ s, (calculate_statistics df).2 = some s ∧
      (s.reason_pcts.map Prod.snd).sum = 100 := by
  rw [calculate_statistics_of_ne_nil h]
  refine ⟨statsOf df.rows, rfl, ?_⟩
  rw [statsOf_reason_pcts, List.map_map]
  have hcomp : (Prod.snd ∘ fun p : String × Nat =>
        (p.1, (p.2 : ℚ) / (df.rows.length : ℚ) * 100))
      = (fun c : Nat => (c : ℚ) / (df.rows.length : ℚ) * 100) ∘ Prod.snd := rfl
  rw [hcomp, ← List.map_map]
  rw [sum_map_pct ((value_counts (df.rows.map CallRecord.reason)).map Prod.snd)]
  rw [value_counts_sum_counts, List.length_map]
  have hT : (df.rows.length : ℚ) ≠ 0 := by
    exact_mod_cast List.length_pos.mpr h |>.ne'
  rw [div_self hT]
  norm_num

theorem c3_reason_pcts_sum_100_witness :
    sampleFrame.rows ≠ [] ∧
    (∃ s, (calculate_statistics sampleFrame).2 = some s ∧
      (s.reason_pcts.map Prod.snd).sum = 100) :=
  ⟨by decide, c3_reason_pcts_sum_100 sampleFrame (by decide)⟩

/-- C4: for every non-empty snapshot, the duration reported by
`calculate_statistics` is computed from the extrema of the timestamp
values — there exist a maximal and a minimal timestamp value among the
records, and the reported boundary times and hour/minute components all
derive from their difference; moreover this is insertion-order
independent: any permutation of the snapshot yields the same duration
(so it is not the positional last-minus-first difference). -/
theorem c4_duration_extrema (df : Frame) (h : df.rows ≠ []) :
    ∃ s, (calculate_statistics df).2 = some s ∧
      (∃ tmax ∈ df.rows.map CallRecord.timestamp,
        ∃ tmin ∈ df.rows.map CallRecord.timestamp,
        (∀ t ∈ df.rows.map CallRecord.timestamp, t ≤ tmax ∧ tmin ≤ t) ∧
        s.end_time = tmax ∧ s.start_time = tmin ∧
        s.duration_hours = (tmax - tmin) / 3600 ∧
        s.duration_minutes = (tmax - tmin) % 3600 / 60) ∧
      (∀ rows' : List CallRecord, df.rows.Perm rows' →
        ∃ s', (calculate_statistics (Frame.ofLog rows')).2 = some s' ∧
          s'.end_time = s.end_time ∧ s'.start_time = s.start_time ∧
          s'.duration_hours = s.duration_hours ∧
          s'.duration_minutes = s.duration_minutes) := by
  rw [calculate_statistics_of_ne_nil h]
  have hne : df.rows.map CallRecord.timestamp ≠ [] := by
    intro h0
    exact h (List.map_eq_nil_iff.mp h0)
  refine ⟨statsOf df.rows, rfl, ?_, ?_⟩
  · exact ⟨seriesMax _, seriesMax_mem _ hne, seriesMin _, seriesMin_mem _ hne,
      fun t ht => ⟨le_seriesMax _ t ht, seriesMin_le _ t ht⟩,
      statsOf_end_time _, statsOf_start_time _,
      statsOf_duration_hours _, statsOf_duration_minutes _⟩
  · intro rows' hperm
    have hne' : rows' ≠ [] := by
      intro h0
      exact h (List.Perm.eq_nil (h0 ▸ hperm))
    rw [calculate_statistics_of_ne_nil (show (Frame.ofLog rows').rows ≠ [] from hne')]
    have hpm : (df.rows.map CallRecord.timestamp).Perm
        (rows'.map CallRecord.timestamp) := hperm.map _
    have hmax := seriesMax_perm hpm hne
    have hmin := seriesMin_perm hpm hne
    refine ⟨statsOf rows', rfl, ?_, ?_, ?_, ?_⟩
    · rw [statsOf_end_time, statsOf_end_time]
      exact hmax.symm
    · rw [statsOf_start_time, statsOf_start_time]
      exact hmin.symm
    · rw [statsOf_duration_hours, statsOf_duration_hours, hmax, hmin]
    · rw [statsOf_duration_minutes, statsOf_duration_minutes, hmax, hmin]

theorem c4_duration_extrema_witness :
    sampleFrame.rows ≠ [] ∧
    (∃ s, (calculate_statistics sampleFrame).2 = some s ∧
      (∃ tmax ∈ sampleFrame.rows.map CallRecord.timestamp,
        ∃ tmin ∈ sampleFrame.rows.map CallRecord.timestamp,
        (∀ t ∈ sampleFrame.rows.map CallRecord.timestamp, t ≤ tmax ∧ tmin ≤ t) ∧
        s.end_time = tmax ∧ s.start_time = tmin ∧
        s.duration_hours = (tmax - tmin) / 3600 ∧
        s.duration_minutes = (tmax - tmin) % 3600 / 60) ∧
      (∀ rows' : List CallRecord, sampleFrame.rows.Perm rows' →
        ∃ s', (calculate_statistics (Frame.ofLog rows')).2 = some s' ∧
          s'.end_time = s.end_time ∧ s'.start_time = s.start_time ∧
          s'.duration_hours = s.duration_hours ∧
          s'.duration_minutes = s.duration_minutes)) :=
  ⟨by decide, c4_duration_extrema sampleFrame (by decide)⟩

/-- C5 counterexample: the claim asserts the CSV header row carries the
labels `Time,Business,Result,Reason,Notes`.  On a concrete one-record
log the export's header line is the DataFrame's own column labels
`timestamp,business,notes,result,reason,datetime` — different labels, a
different order, and an extra column. -/
theorem c5_counterexample :
    exportCsvLines [sampleRecord]
        = some ["timestamp,business,notes,result,reason,datetime",
                "7,Acme,,Interested,N/A,7"] ∧
    ("timestamp,business,notes,result,reason,datetime" : String)
        ≠ "Time,Business,Result,Reason,Notes" := by
  constructor
  · decide
  · decide

/-- C5 amended: the CSV export produces exactly one data row per
CallRecord (row count equals the call-log length) plus one header row,
but the header carries the DataFrame's own column labels
`timestamp,business,notes,result,reason,datetime` (the five dict keys of
`log_call` in insertion order plus the `datetime` column that
`calculate_statistics` added to the frame before the export), not
`Time,Business,Result,Reason,Notes`. -/
theorem c5_amended_csv_shape (log : List CallRecord) (h : log ≠ []) :
    ∃ lines, exportCsvLines log = some lines ∧
      lines.length = log.length + 1 ∧
      lines.head? = some "timestamp,business,notes,result,reason,datetime" := by
  obtain ⟨a, l, rfl⟩ : ∃ a l, log = a :: l := by
    cases log with
    | nil => exact absurd rfl h
    | cons a l => exact ⟨a, l, rfl⟩
  have hres := calculate_statistics_of_ne_nil
    (show (Frame.ofLog (a :: l)).rows ≠ [] from List.cons_ne_nil a l)
  refine ⟨to_csv_lines (Frame.mk (a :: l) (some ((a :: l).map CallRecord.timestamp))),
    ?_, ?_, ?_⟩
  · simp only [exportCsvLines, List.isEmpty_cons, hres]
    rfl
  · simp only [to_csv_lines, List.length_cons, List.length_map, List.length_zip,
      Nat.min_self]
  · rfl

theorem c5_amended_csv_shape_witness :
    ([sampleRecord] : List CallRecord) ≠ [] ∧
    (∃ lines, exportCsvLines [sampleRecord] = some lines ∧
      lines.length = [sampleRecord].length + 1 ∧
      lines.head? = some "timestamp,business,notes,result,reason,datetime") :=
  ⟨by decide, c5_amended_csv_shape [sampleRecord] (by decide)⟩

/-- A three-record log whose reasons are `N/A`, `No answer`, `No answer`:
first-occurrence order of the distinct reasons is `[N/A, No answer]`, but
`value_counts` lists the more frequent `No answer` first. -/
def c6Frame : Frame :=
  Frame.ofLog
    [{ timestamp := 0, business := "Acme", notes := "",
       result := "Interested", reason := "N/A" },
     { timestamp := 0, business := "Beta", notes := "",
       result := "Rejected", reason := "No answer" },
     { timestamp := 0, business := "Gamma", notes := "",
       result := "Rejected", reason := "No answer" }]

/-- C6 counterexample: the claim asserts the keys of `reason_pcts` are
listed in order of first occurrence.  On `c6Frame` the computed key order
is `["No answer", "N/A"]` (descending count) while the first-occurrence
order is `["N/A", "No answer"]`. -/
theorem c6_counterexample :
    ((calculate_statistics c6Frame).2.map (fun s => s.reason_pcts.map Prod.fst))
        = some ["No answer", "N/A"] ∧
    firstOccurrences (c6Frame.rows.map CallRecord.reason) = ["N/A", "No answer"] ∧
    (["No answer", "N/A"] : List String) ≠ ["N/A", "No answer"] := by
  refine ⟨by decide, by decide, by decide⟩

/-- C6 amended: for every non-empty snapshot, the keys of `reason_pcts`
are exactly the distinct reason values present in the snapshot (a
permutation of the distinct values in first-occurrence order), listed by
non-increasing percentage — `value_counts` sorts by count descending, not
by first occurrence. -/
theorem c6_amended_reason_keys (df : Frame) (h : df.rows ≠ []) :
    ∃ s, (calculate_statistics df).2 = some s ∧
      (s.reason_pcts.map Prod.fst).Perm
        (firstOccurrences (df.rows.map CallRecord.reason)) ∧
      s.reason_pcts.Pairwise (fun a b => b.2 ≤ a.2) := by
  rw [calculate_statistics_of_ne_nil h]
  refine ⟨statsOf df.rows, rfl, ?_, ?_⟩
  · rw [statsOf_reason_pcts, List.map_map]
    have hfst : (Prod.fst ∘ fun p : String × Nat =>
          (p.1, (p.2 : ℚ) / (df.rows.length : ℚ) * 100))
        = Prod.fst := rfl
    rw [hfst]
    exact value_counts_keys_perm _
  · rw [statsOf_reason_pcts]
    have hTpos : (0 : ℚ) < (df.rows.length : ℚ) := by
      exact_mod_cast List.length_pos.mpr h
    refine List.Pairwise.map _ ?_ (value_counts_sorted _)
    intro a b hab
    have hab' : (b.2 : ℚ) ≤ (a.2 : ℚ) := by exact_mod_cast hab
    exact mul_le_mul_of_nonneg_right
      ((div_le_div_iff_of_pos_right hTpos).mpr hab') (by norm_num)

theorem c6_amended_reason_keys_witness :
    sampleFrame.rows ≠ [] ∧
    (∃ s, (calculate_statistics sampleFrame).2 = some s ∧
      (s.reason_pcts.map Prod.fst).Perm
        (firstOccurrences (sampleFrame.rows.map CallRecord.reason)) ∧
      s.reason_pcts.Pairwise (fun a b => b.2 ≤ a.2)) :=
  ⟨by decide, c6_amended_reason_keys sampleFrame (by decide)⟩

/-- C7 counterexample: the claim asserts `calculate_statistics` leaves the
snapshot it receives unchanged.  On a concrete one-record frame the frame
after the call differs from the frame before it: the `datetime` column
has been assigned into it. -/
theorem c7_counterexample :
    (calculate_statistics sampleFrame).1 ≠ sampleFrame := by decide

/-- C7 amended: `calculate_statistics` never adds, removes or modifies a
*record* of the snapshot, and its result is a pure function of the
records; but it is not free of effects on the frame: for a non-empty
snapshot it assigns the parsed `datetime` column into the DataFrame it
was given (`df['datetime'] = ...`, app.py:154). -/
theorem c7_amended_frame_effect (df df' : Frame) (h : df.rows = df'.rows) :
    ((calculate_statistics df).1).rows = df.rows ∧
    (calculate_statistics df).2 = (calculate_statistics df').2 ∧
    (df.rows ≠ [] →
      ((calculate_statistics df).1).datetimeCol
        = some (df.rows.map CallRecord.timestamp)) := by
  by_cases hnil : df.rows = []
  · have hnil' : df'.rows = [] := h ▸ hnil
    rw [calculate_statistics_of_nil hnil, calculate_statistics_of_nil hnil']
    exact ⟨rfl, rfl, fun hc => absurd hnil hc⟩
  · have hnil' : df'.rows ≠ [] := h ▸ hnil
    rw [calculate_statistics_of_ne_nil hnil, calculate_statistics_of_ne_nil hnil']
    exact ⟨rfl, by rw [h], fun _ => rfl⟩

/-- A frame with the same rows as `sampleFrame` but a stale extra column. -/
def sampleFrameDt : Frame := Frame.mk [sampleRecord] (some [7])

theorem c7_amended_frame_effect_witness :
    sampleFrame.rows = sampleFrameDt.rows ∧
    (((calculate_statistics sampleFrame).1).rows = sampleFrame.rows ∧
     (calculate_statistics sampleFrame).2 = (calculate_statistics sampleFrameDt).2 ∧
     (sampleFrame.rows ≠ [] →
       ((calculate_statistics sampleFrame).1).datetimeCol
         = some (sampleFrame.rows.map CallRecord.timestamp))) :=
  ⟨rfl, c7_amended_frame_effect sampleFrame sampleFrameDt rfl⟩

/-- C8: for every non-empty snapshot, the rendered session-duration
components are the floors of the elapsed time — the hour component is
`⌊seconds / 3600⌋` and the minute component is `⌊(seconds mod 3600) / 60⌋`
(each at most the exact quotient and within one below it), never rounded
up. -/
theorem c8_duration_truncated (df : Frame) (h : df.rows ≠ []) :
    ∃ s, (calculate_statistics df).2 = some s ∧
      ∀ d : Nat,
        d = seriesMax (df.rows.map CallRecord.timestamp)
              - seriesMin (df.rows.map CallRecord.timestamp) →
        ((s.duration_hours : ℚ) ≤ (d : ℚ) / 3600 ∧
          (d : ℚ) / 3600 < (s.duration_hours : ℚ) + 1) ∧
        ((s.duration_minutes : ℚ) ≤ ((d % 3600 : Nat) : ℚ) / 60 ∧
          ((d % 3600 : Nat) : ℚ) / 60 < (s.duration_minutes : ℚ) + 1) := by
  rw [calculate_statistics_of_ne_nil h]
  refine ⟨statsOf df.rows, rfl, ?_⟩
  intro d hd
  have hh : (statsOf df.rows).duration_hours = d / 3600 := by
    rw [statsOf_duration_hours, hd]
  have hm : (statsOf df.rows).duration_minutes = d % 3600 / 60 := by
    rw [statsOf_duration_minutes, hd]
  refine ⟨⟨?_, ?_⟩, ?_, ?_⟩
  · rw [hh, le_div_iff₀ (by norm_num : (0 : ℚ) < 3600)]
    exact_mod_cast Nat.div_mul_le_self d 3600
  · rw [hh, div_lt_iff₀ (by norm_num : (0 : ℚ) < 3600)]
    have h1 : d < (d / 3600 + 1) * 3600 := by
      have h2 := Nat.div_add_mod d 3600
      have h3 : d % 3600 < 3600 := Nat.mod_lt _ (by norm_num)
      omega
    exact_mod_cast h1
  · rw [hm, le_div_iff₀ (by norm_num : (0 : ℚ) < 60)]
    exact_mod_cast Nat.div_mul_le_self (d % 3600) 60
  · rw [hm, div_lt_iff₀ (by norm_num : (0 : ℚ) < 60)]
    have h1 : d % 3600 < (d % 3600 / 60 + 1) * 60 := by
      have h2 := Nat.div_add_mod (d % 3600) 60
      have h3 : d % 3600 % 60 < 60 := Nat.mod_lt _ (by norm_num)
      omega
    exact_mod_cast h1

theorem c8_duration_truncated_witness :
    sampleFrame.rows ≠ [] ∧
    (∃ s, (calculate_statistics sampleFrame).2 = some s ∧
      ∀ d : Nat,
        d = seriesMax (sampleFrame.rows.map CallRecord.timestamp)
              - seriesMin (sampleFrame.rows.map CallRecord.timestamp) →
        ((s.duration_hours : ℚ) ≤ (d : ℚ) / 3600 ∧
          (d : ℚ) / 3600 < (s.duration_hours : ℚ) + 1) ∧
        ((s.duration_minutes : ℚ) ≤ ((d % 3600 : Nat) : ℚ) / 60 ∧
          ((d % 3600 : Nat) : ℚ) / 60 < (s.duration_minutes : ℚ) + 1)) :=
  ⟨by decide, c8_duration_truncated sampleFrame (by decide)⟩

/-- C9: a submission with an empty business name never reaches the call
log — the log is returned unchanged and no record is created; a record is
appended (at the end, with the second-precision timestamp) exactly when
the form was submitted with a non-empty business name. -/
theorem c9_empty_business_rejected (log : List CallRecord) (submitted : Bool)
    (business notes result reason : String) (now : Nat) :
    (business = "" →
      submitHandler log submitted business notes result reason now = log) ∧
    (submitted = true → business ≠ "" →
      submitHandler log submitted business notes result reason now
        = log ++ [CallRecord.mk (now / 1000000) business notes result reason]) := by
  constructor
  · intro hb
    unfold submitHandler
    rw [if_neg]
    intro hcond
    exact hcond.2 hb
  · intro hs hb
    unfold submitHandler
    rw [if_pos (And.intro (by rw [hs]) hb)]
    rfl

theorem c9_empty_business_rejected_witness :
    submitHandler [] true "" "n" "Interested" "N/A" 5 = [] ∧
    submitHandler [] true "Acme" "n" "Interested" "N/A" 5000000
      = [] ++ [CallRecord.mk 5 "Acme" "n" "Interested" "N/A"] :=
  ⟨(c9_empty_business_rejected [] true "" "n" "Interested" "N/A" 5).1 rfl,
   (c9_empty_business_rejected [] true "Acme" "n" "Interested" "N/A" 5000000).2
     rfl (by decide)⟩

/-- C10: `log_call` stores timestamps truncated to whole seconds (the
`"%Y-%m-%d %H:%M:%S"` format), so two records logged within the same
wall-clock second carry equal timestamps; on such a two-record log the
parsed duration is zero and `calls_per_hour` falls back to
`total_calls`. -/
theorem c10_second_precision_fallback (t1 t2 : Nat)
    (h : t1 / 1000000 = t2 / 1000000)
    (b1 n1 r1 s1 b2 n2 r2 s2 : String) :
    ((log_call (log_call [] t1 b1 n1 r1 s1) t2 b2 n2 r2 s2).map CallRecord.timestamp
        = [t1 / 1000000, t1 / 1000000]) ∧
    (∃ s, (calculate_statistics (Frame.ofLog
        (log_call (log_call [] t1 b1 n1 r1 s1) t2 b2 n2 r2 s2))).2 = some s ∧
      s.total_calls = 2 ∧
      s.end_time = s.start_time ∧
      s.duration_hours = 0 ∧ s.duration_minutes = 0 ∧
      s.calls_per_hour = (s.total_calls : ℚ)) := by
  have hts : (log_call (log_call [] t1 b1 n1 r1 s1) t2 b2 n2 r2 s2).map
      CallRecord.timestamp = [t1 / 1000000, t1 / 1000000] := by
    show [t1 / 1000000, t2 / 1000000] = [t1 / 1000000, t1 / 1000000]
    rw [h]
  refine ⟨hts, ?_⟩
  rw [calculate_statistics_of_ne_nil
    (show (Frame.ofLog (log_call (log_call [] t1 b1 n1 r1 s1) t2 b2 n2 r2 s2)).rows
        ≠ [] from List.cons_ne_nil _ _)]
  have hts' : (Frame.ofLog (log_call (log_call [] t1 b1 n1 r1 s1)
        t2 b2 n2 r2 s2)).rows.map CallRecord.timestamp
      = [t1 / 1000000, t1 / 1000000] := hts
  refine ⟨statsOf _, rfl, rfl, ?_, ?_, ?_, ?_⟩
  · rw [statsOf_end_time, statsOf_start_time, hts']
    simp [seriesMax, seriesMin]
  · rw [statsOf_duration_hours, hts']
    simp [seriesMax, seriesMin]
  · rw [statsOf_duration_minutes, hts']
    simp [seriesMax, seriesMin]
  · rw [statsOf_calls_per_hour, statsOf_total_calls, hts']
    norm_num [seriesMax, seriesMin]

theorem c10_second_precision_fallback_witness :
    1500000 / 1000000 = 1999999 / 1000000 ∧
    (((log_call (log_call [] 1500000 "A" "" "Interested" "N/A")
          1999999 "B" "" "Rejected" "No answer").map CallRecord.timestamp
        = [1500000 / 1000000, 1500000 / 1000000]) ∧
     (∃ s, (calculate_statistics (Frame.ofLog
          (log_call (log_call [] 1500000 "A" "" "Interested" "N/A")
            1999999 "B" "" "Rejected" "No answer"))).2 = some s ∧
       s.total_calls = 2 ∧
       s.end_time = s.start_time ∧
       s.duration_hours = 0 ∧ s.duration_minutes = 0 ∧
       s.calls_per_hour = (s.total_calls : ℚ))) :=
  ⟨by decide, c10_second_precision_fallback 1500000 1999999 (by decide)
    "A" "" "Interested" "N/A" "B" "" "Rejected" "No answer"⟩

end ColdCalling
